import Mathlib

/-!
Verification of the code-metrics analyzer.

The repository contains two near-duplicate metric scanners:
`src/tools/check_code_metrics.py` (class `CodeMetrics`) and
`src/scripts/verify_metrics.py` (class `MetricsAnalyzer`).  This file gives a
shallow embedding of both: lines of a file are `List String`, Python's string
operations are modelled over `String`/`List Char`, Python `int` brace counters
are `Int`, and fallible file reads are `Option (List String)` (`none` = the
`except` branch fired).  The regular-expression signature matchers are kept
abstract as function parameters (`String → Bool` resp. `String → Option String`
for a matcher that also extracts the name, as `match.group(1)` does): every
theorem below is about the surrounding loop logic, which is independent of the
regex, and witnesses instantiate the parameter with a concrete function.
-/

namespace Metrics

/-- Prefix test on character lists (used to model Python's `startswith` and
`in` on strings by explicit recursion, so the kernel can evaluate it). -/
def listIsPre : List Char → List Char → Bool
  | [], _ => true
  | _ :: _, [] => false
  | a :: as, b :: bs => a = b && listIsPre as bs

/-- Substring occurrence test on character lists. -/
def listHasSub (pat : List Char) : List Char → Bool
  | [] => pat.isEmpty
  | c :: cs => listIsPre pat (c :: cs) || listHasSub pat cs

/-- Python's `sub in s` substring test. -/
def strContains (s pat : String) : Bool :=
  listHasSub pat.toList s.toList

/-- Python's `s.startswith(pat)`. -/
def pyStartsWith (s pat : String) : Bool :=
  listIsPre pat.toList s.toList

/-- ASCII whitespace stripped by Python's `str.strip()`. -/
def isSpaceChar (c : Char) : Bool :=
  c = ' ' || c = '\t' || c = '\n' || c = '\r' || c = '\x0b' || c = '\x0c'

/-- Python's `line.strip()`. -/
def pyStrip (s : String) : String :=
  String.mk (((s.toList.dropWhile isSpaceChar).reverse.dropWhile isSpaceChar).reverse)

/-- Net brace balance of one line: `line.count('{') - line.count('}')`
(Python `int`, so the model uses `Int`). -/
def netBraces (line : String) : Int :=
  (line.toList.count '{' : Int) - (line.toList.count '}' : Int)

/-! ## `check_code_metrics.py`: `CodeMetrics.count_code_lines`

Source lines 34-61.  State is `(count, in_block_comment)`; each source
`continue` is one of the early-return branches below. -/

/-- One iteration of the `for line in lines` loop of `count_code_lines`.
The source first sets `in_block_comment = True` when `'/*'` occurs, then
tests `'*/'`, then the resulting state, then the line-comment markers. -/
def ccStep (s : Nat × Bool) (line : String) : Nat × Bool :=
  if pyStrip line = "" then s
  else if strContains (pyStrip line) "*/" then (s.1, false)
  else if (if strContains (pyStrip line) "/*" then true else s.2) then
    (s.1, if strContains (pyStrip line) "/*" then true else s.2)
  else if pyStartsWith (pyStrip line) "//" || pyStartsWith (pyStrip line) "#" then s
  else (s.1 + 1, s.2)

/-- `CodeMetrics.count_code_lines(lines)`: code lines excluding comments and
blanks. -/
def count_code_lines (lines : List String) : Nat :=
  (lines.foldl ccStep (0, false)).1

/-! ## `verify_metrics.py`: `MetricsAnalyzer.count_file_lines`

Source lines 64-112.  The classifier state is
`(code_lines, comment_lines, blank_lines, in_block_comment)`.  The same
per-line decision chain reappears verbatim inside `extract_dart_functions`
(lines 168-192) and `extract_rust_functions` (lines 258-282) for counting the
code lines of a function span, so `vmStep` is shared by both models. -/

/-- `MetricsAnalyzer.is_comment_line(line, lang)`; the `dart` and `rust`
branches of the source are textually identical, so the language argument is
dropped. -/
def is_comment_line (line : String) : Bool :=
  pyStartsWith (pyStrip line) "//" || pyStartsWith (pyStrip line) "/*"
    || pyStartsWith (pyStrip line) "*"

/-- State of the `count_file_lines` loop. -/
structure VMState where
  code : Nat
  comment : Nat
  blank : Nat
  inBlock : Bool
deriving Repr, DecidableEq

/-- One iteration of the `for line in lines` loop of `count_file_lines`
(each source branch ends in `continue`, so the chain is an if/else cascade). -/
def vmStep (s : VMState) (line : String) : VMState :=
  if pyStrip line = "" then { s with blank := s.blank + 1 }
  else if strContains (pyStrip line) "/*" then
    { s with comment := s.comment + 1,
             inBlock := if strContains (pyStrip line) "*/" then false else true }
  else if s.inBlock then
    { s with comment := s.comment + 1,
             inBlock := if strContains (pyStrip line) "*/" then false else s.inBlock }
  else if is_comment_line line then { s with comment := s.comment + 1 }
  else { s with code := s.code + 1 }

/-- `MetricsAnalyzer.count_file_lines` on already-read lines: returns
`(total_lines, code_lines, comment_lines, blank_lines)`. -/
def count_file_lines_some (lines : List String) : Nat × Nat × Nat × Nat :=
  (lines.length, (lines.foldl vmStep ⟨0, 0, 0, false⟩).code,
   (lines.foldl vmStep ⟨0, 0, 0, false⟩).comment,
   (lines.foldl vmStep ⟨0, 0, 0, false⟩).blank)

/-- `MetricsAnalyzer.count_file_lines` including the `except` branch
(source lines 69-74): an unreadable file yields `(0, 0, 0, 0)`. -/
def count_file_lines (content : Option (List String)) : Nat × Nat × Nat × Nat :=
  match content with
  | none => (0, 0, 0, 0)
  | some lines => count_file_lines_some lines

lemma vmStep_total (s : VMState) (line : String) :
    (vmStep s line).code + (vmStep s line).comment + (vmStep s line).blank
      = s.code + s.comment + s.blank + 1 := by
  unfold vmStep
  split_ifs <;> simp <;> omega

lemma vmFold_total (lines : List String) (s : VMState) :
    (lines.foldl vmStep s).code + (lines.foldl vmStep s).comment
      + (lines.foldl vmStep s).blank
      = s.code + s.comment + s.blank + lines.length := by
  induction lines generalizing s with
  | nil => simp
  | cons l ls ih =>
    simp only [List.foldl_cons, List.length_cons]
    rw [ih]
    have := vmStep_total s l
    omega

/-- C1: for every input (readable or not), the counts returned by
`count_file_lines` satisfy `code + comment + blank = total`: each physical
line is assigned exactly one of the three labels, and an unreadable file is
reported as all zeros. -/
theorem count_file_lines_partition (content : Option (List String)) :
    (count_file_lines content).2.1 + (count_file_lines content).2.2.1
        + (count_file_lines content).2.2.2
      = (count_file_lines content).1 := by
  cases content with
  | none => rfl
  | some lines =>
    simp only [count_file_lines, count_file_lines_some]
    have := vmFold_total lines ⟨0, 0, 0, false⟩
    simpa using this

lemma strContains_ne_empty {s : String} (h : strContains s "*/" = true) :
    s ≠ "" := by
  intro he
  rw [he] at h
  simp [strContains, listHasSub, List.isEmpty] at h

/-- C10: in `CodeMetrics.count_code_lines`, a line whose stripped text
contains `*/` is never counted as code and always clears the block-comment
state, even when no block comment is open; in particular the lone code line
`int x = a */ b;` yields a count of 0. -/
theorem count_code_lines_close_marker (cnt : Nat) (b : Bool) (line : String)
    (h : strContains (pyStrip line) "*/" = true) :
    ccStep (cnt, b) line = (cnt, false)
      ∧ count_code_lines ["int x = a */ b;"] = 0 := by
  refine ⟨?_, by decide⟩
  unfold ccStep
  rw [if_neg (strContains_ne_empty h), if_pos h]

/-- Witness for C10 at the concrete line from the claim. -/
theorem count_code_lines_close_marker_witness :
    ccStep (0, false) "int x = a */ b;" = (0, false)
      ∧ count_code_lines ["int x = a */ b;"] = 0 :=
  count_code_lines_close_marker 0 false "int x = a */ b;" (by decide)

/-! ## `check_code_metrics.py`: `CodeMetrics.find_dart_functions`

Source lines 88-110.  The loop keeps `functions`, `current_function` and
`brace_count`; a new extraction starts only when the declaration regex
matches, the line contains `{`, and no extraction is active.  The regex of
line 98 is abstracted as the parameter `m`.  Note that for the signature line
itself `brace_count` is first assigned its net brace balance and then, in the
same iteration, incremented by it again (lines 101 and 105). -/

/-- One entry of the `functions` list: `(stripped signature, start, end)`,
line numbers 1-based and inclusive. -/
structure FDRecord where
  name : String
  startLine : Nat
  endLine : Nat
deriving Repr, DecidableEq

/-- Loop state of `find_dart_functions`. -/
structure FDState where
  functions : List FDRecord
  current : Option (String × Nat)
  bc : Int
deriving Repr, DecidableEq

/-- The `# Track braces` half of the loop body (source lines 103-108): when an
extraction is active, add the line's net balance and close the record when the
counter reaches zero. -/
def fdTrack (i : Nat) (s : FDState) (line : String) : FDState :=
  match s.current with
  | some c =>
    if s.bc + netBraces line = 0 then
      { functions := s.functions ++ [⟨c.1, c.2, i + 1⟩], current := none, bc := 0 }
    else { s with bc := s.bc + netBraces line }
  | none => s

/-- One iteration of the `for i, line in enumerate(lines)` loop, `i` 0-based:
possibly start an extraction (source lines 97-101), then track braces. -/
def fdStep (m : String → Bool) (i : Nat) (s : FDState) (line : String) : FDState :=
  fdTrack i
    (if m line && strContains line "\x7b" && s.current.isNone then
      { s with current := some (pyStrip line, i + 1), bc := netBraces line }
    else s) line

lemma fdTrack_none (i : Nat) (s : FDState) (line : String) (hc : s.current = none) :
    fdTrack i s line = s := by
  simp [fdTrack, hc]

lemma fdTrack_close (i : Nat) (s : FDState) (line : String) (c : String × Nat)
    (hc : s.current = some c) (hz : s.bc + netBraces line = 0) :
    fdTrack i s line
      = ⟨s.functions ++ [⟨c.1, c.2, i + 1⟩], none, 0⟩ := by
  simp [fdTrack, hc, hz]

lemma fdTrack_open (i : Nat) (s : FDState) (line : String) (c : String × Nat)
    (hc : s.current = some c) (hz : s.bc + netBraces line ≠ 0) :
    fdTrack i s line = { s with bc := s.bc + netBraces line } := by
  simp [fdTrack, hc, hz]

lemma fdStep_some (m : String → Bool) (i : Nat) (s : FDState) (line : String)
    (c : String × Nat) (hc : s.current = some c) :
    fdStep m i s line = fdTrack i s line := by
  simp [fdStep, hc]

/-- The whole loop, from index `i` and state `s`. -/
def fdRun (m : String → Bool) : Nat → FDState → List String → FDState
  | _, s, [] => s
  | i, s, l :: ls => fdRun m (i + 1) (fdStep m i s l) ls

/-- `CodeMetrics.find_dart_functions(lines)` (the declaration regex is the
parameter `m`).  `find_rust_functions` (source lines 112-134) is the same
loop with a different regex, hence the same model. -/
def find_dart_functions (m : String → Bool) (lines : List String) : List FDRecord :=
  (fdRun m 0 ⟨[], none, 0⟩ lines).functions

/-- A concrete stand-in for the declaration regex, used by witnesses: it
matches exactly the lines the real regex of source line 98 matches among the
inputs it is applied to below. -/
def sigVoid (line : String) : Bool :=
  strContains line "void "

/-- The running brace counter `b` never returns to zero while consuming `ls`. -/
def neverZeroB : Int → List String → Bool
  | _, [] => true
  | b, l :: ls => (b + netBraces l != 0) && neverZeroB (b + netBraces l) ls

lemma fdStep_active (m : String → Bool) (i : Nat) (s : FDState) (c : String × Nat)
    (line : String) (hc : s.current = some c)
    (hbc : s.bc + netBraces line ≠ 0) :
    fdStep m i s line = { s with bc := s.bc + netBraces line } := by
  rw [fdStep_some m i s line c hc, fdTrack_open i s line c hc hbc]

/-- C4: if an extraction is active (`current = some c`) and the running brace
counter never returns to zero over the remaining lines, the loop of
`find_dart_functions` runs to the end of the file producing no further
function records (and, being a total function, terminates without raising);
the unfinished extraction stays pending and is silently dropped. -/
theorem find_dart_unclosed_failsoft (m : String → Bool) (i : Nat) (s : FDState)
    (c : String × Nat) (ls : List String) (hc : s.current = some c)
    (h : neverZeroB s.bc ls = true) :
    (fdRun m i s ls).functions = s.functions ∧ (fdRun m i s ls).current = some c := by
  induction ls generalizing i s with
  | nil => exact ⟨rfl, hc⟩
  | cons l ls ih =>
    simp only [neverZeroB, Bool.and_eq_true, bne_iff_ne, ne_eq] at h
    rw [fdRun, fdStep_active m i s c l hc h.1]
    exact ih (i + 1) _ hc h.2

/-- Witness for C4: `void f() {` opens an extraction whose counter (doubled to
2 by the re-add of the signature line's balance) never returns to zero, so no
record at all is produced. -/
theorem find_dart_unclosed_failsoft_witness :
    find_dart_functions sigVoid ["void f() \x7b", "x"] = [] := by
  have h := find_dart_unclosed_failsoft sigVoid 1
    ⟨[], some ("void f() \x7b", 1), 2⟩ ("void f() \x7b", 1) ["x"] rfl (by decide)
  exact h.1

/-- Counterexample to C5: a signature nested inside the body of another
function does not get an independent record.  Here `void inner() { x; }` is
a complete one-line function nested in `void outer() { ... }`, both matched
by the declaration pattern, yet the scan produces no record for it (in this
input, none at all: the signature-line double count keeps the outer counter
from returning to zero). -/
theorem find_dart_nested_not_independent :
    find_dart_functions sigVoid
      ["void outer() \x7b", "  void inner() \x7b x; \x7d", "\x7d"] = [] := by
  decide

/-- C5 (amended): while an extraction is active, a line is never the start of
a new independent record: the step either leaves the record list unchanged or
closes the active (outer) extraction, and the active extraction never switches
to the nested signature. -/
theorem fdStep_no_nested_start (m : String → Bool) (i : Nat) (s : FDState)
    (c : String × Nat) (line : String) (hc : s.current = some c) :
    ((fdStep m i s line).current = some c ∨ (fdStep m i s line).current = none)
      ∧ ((fdStep m i s line).functions = s.functions
          ∨ (fdStep m i s line).functions = s.functions ++ [⟨c.1, c.2, i + 1⟩]) := by
  rw [fdStep_some m i s line c hc]
  by_cases hbc : s.bc + netBraces line = 0
  · rw [fdTrack_close i s line c hc hbc]
    exact ⟨Or.inr rfl, Or.inr rfl⟩
  · rw [fdTrack_open i s line c hc hbc]
    exact ⟨Or.inl hc, Or.inl rfl⟩

/-- Witness for C5's amended statement, at the nested signature line of the
counterexample. -/
theorem fdStep_no_nested_start_witness :
    ((fdStep sigVoid 1 ⟨[], some ("void outer() \x7b", 1), 2⟩ "  void inner() \x7b x; \x7d").current
          = some ("void outer() \x7b", 1)
        ∨ (fdStep sigVoid 1 ⟨[], some ("void outer() \x7b", 1), 2⟩ "  void inner() \x7b x; \x7d").current
          = none)
      ∧ ((fdStep sigVoid 1 ⟨[], some ("void outer() \x7b", 1), 2⟩ "  void inner() \x7b x; \x7d").functions
          = []
        ∨ (fdStep sigVoid 1 ⟨[], some ("void outer() \x7b", 1), 2⟩ "  void inner() \x7b x; \x7d").functions
          = [] ++ [⟨"void outer() \x7b", 1, 2⟩]) :=
  fdStep_no_nested_start sigVoid 1 ⟨[], some ("void outer() \x7b", 1), 2⟩
    ("void outer() \x7b", 1) "  void inner() \x7b x; \x7d" rfl

/-! ## Record invariants of the extractor (C6) -/

/-- Python's `lines[start-1:end]` as used at source line 152 of
`check_code_metrics.py` (`start ≥ 1` for every record the loop produces). -/
def pySlice (lines : List String) (a b : Nat) : List String :=
  (lines.drop (a - 1)).take (b - (a - 1))

lemma ccStep_le (s : Nat × Bool) (line : String) : (ccStep s line).1 ≤ s.1 + 1 := by
  unfold ccStep
  split_ifs <;> simp

lemma ccFold_le (lines : List String) (s : Nat × Bool) :
    (lines.foldl ccStep s).1 ≤ s.1 + lines.length := by
  induction lines generalizing s with
  | nil => simp
  | cons l ls ih =>
    simp only [List.foldl_cons, List.length_cons]
    calc (ls.foldl ccStep (ccStep s l)).1 ≤ (ccStep s l).1 + ls.length := ih _
      _ ≤ s.1 + 1 + ls.length := by have := ccStep_le s l; omega
      _ = s.1 + (ls.length + 1) := by omega

lemma count_code_lines_le_length (lines : List String) :
    count_code_lines lines ≤ lines.length := by
  have := ccFold_le lines (0, false)
  simpa [count_code_lines] using this

/-- Invariant carried through the `find_dart_functions` loop: all finished
records have `1 ≤ start ≤ end`, and an active extraction started on an
already-visited line. -/
def FDInv (i : Nat) (s : FDState) : Prop :=
  (∀ r ∈ s.functions, 1 ≤ r.startLine ∧ r.startLine ≤ r.endLine)
    ∧ ∀ nm st, s.current = some (nm, st) → 1 ≤ st ∧ st ≤ i

lemma fdStep_inv (m : String → Bool) (i : Nat) (s : FDState) (line : String)
    (h : FDInv i s) : FDInv (i + 1) (fdStep m i s line) := by
  obtain ⟨hf, hcur⟩ := h
  cases hc : s.current with
  | some c =>
    rw [fdStep_some m i s line c hc]
    by_cases hz : s.bc + netBraces line = 0
    · rw [fdTrack_close i s line c hc hz]
      refine ⟨?_, ?_⟩
      · intro r hr
        rcases List.mem_append.mp hr with hr | hr
        · exact hf r hr
        · have hrr : r = ⟨c.1, c.2, i + 1⟩ := List.mem_singleton.mp hr
          subst hrr
          have := hcur c.1 c.2 (by rw [hc])
          refine ⟨this.1, ?_⟩
          show c.2 ≤ i + 1
          omega
      · intro nm st hst
        simp at hst
    · rw [fdTrack_open i s line c hc hz]
      refine ⟨hf, ?_⟩
      intro nm st hst
      have := hcur nm st hst
      omega
  | none =>
    unfold fdStep
    by_cases hm : (m line && strContains line "\x7b" && s.current.isNone) = true
    · rw [if_pos hm]
      by_cases hz :
          (netBraces line : Int) + netBraces line = 0
      · rw [fdTrack_close i
          { s with current := some (pyStrip line, i + 1), bc := netBraces line }
          line (pyStrip line, i + 1) rfl hz]
        refine ⟨?_, ?_⟩
        · intro r hr
          rcases List.mem_append.mp hr with hr | hr
          · exact hf r hr
          · have hrr : r = ⟨pyStrip line, i + 1, i + 1⟩ := List.mem_singleton.mp hr
            subst hrr
            exact ⟨Nat.succ_le_succ (Nat.zero_le i), le_refl _⟩
        · intro nm st hst
          simp at hst
      · rw [fdTrack_open i
          { s with current := some (pyStrip line, i + 1), bc := netBraces line }
          line (pyStrip line, i + 1) rfl hz]
        refine ⟨hf, ?_⟩
        intro nm st hst
        have hst' : some (pyStrip line, i + 1) = some (nm, st) := hst
        have : st = i + 1 := by
          injection hst' with h1
          exact (congrArg Prod.snd h1).symm
        omega
    · rw [if_neg hm, fdTrack_none i s line hc]
      refine ⟨hf, ?_⟩
      intro nm st hst
      rw [hc] at hst
      simp at hst

lemma fdRun_inv (m : String → Bool) (ls : List String) (i : Nat) (s : FDState)
    (h : FDInv i s) : ∀ r ∈ (fdRun m i s ls).functions,
      1 ≤ r.startLine ∧ r.startLine ≤ r.endLine := by
  induction ls generalizing i s with
  | nil => exact h.1
  | cons l ls ih => exact ih (i + 1) _ (fdStep_inv m i s l h)

/-- C6: every record of `find_dart_functions` has `start ≤ end`, and the
code-line count that `check_function_sizes` computes for its span
(`count_code_lines(lines[start-1:end])`) is at most the raw span length
`end - start + 1`. -/
theorem find_dart_record_invariant (m : String → Bool) (lines : List String)
    (r : FDRecord) (hr : r ∈ find_dart_functions m lines) :
    r.startLine ≤ r.endLine
      ∧ count_code_lines (pySlice lines r.startLine r.endLine)
          ≤ r.endLine - r.startLine + 1 := by
  have hinv : FDInv 0 (⟨[], none, 0⟩ : FDState) := by
    constructor
    · intro r hr; simp at hr
    · intro nm st hst; simp at hst
  have h := fdRun_inv m lines 0 ⟨[], none, 0⟩ hinv r hr
  refine ⟨h.2, ?_⟩
  calc count_code_lines (pySlice lines r.startLine r.endLine)
      ≤ (pySlice lines r.startLine r.endLine).length :=
        count_code_lines_le_length _
    _ ≤ r.endLine - (r.startLine - 1) := by
        simp only [pySlice]
        exact (List.length_take_le _ _)
    _ ≤ r.endLine - r.startLine + 1 := by omega

/-- Witness for C6 at the one-line function `void f() { x; }`. -/
theorem find_dart_record_invariant_witness :
    (1 : Nat) ≤ 1
      ∧ count_code_lines (pySlice ["void f() \x7b x; \x7d"] 1 1) ≤ 1 - 1 + 1 :=
  find_dart_record_invariant sigVoid ["void f() \x7b x; \x7d"]
    ⟨"void f() \x7b x; \x7d", 1, 1⟩ (by decide)

/-! ## `check_code_metrics.py`: thresholds (C2)

`check_file_size` (source lines 63-86) and `check_function_sizes` (source
lines 136-173).  The `except` branches are the `none` cases; the boolean
return values of the Python methods are dropped (no caller uses them for
anything but the ignored result of `scan_directory`). -/

/-- `MAX_FILE_LINES` (source line 15). -/
def MAX_FILE_LINES : Nat := 500

/-- `MAX_FUNCTION_LINES` (source line 16). -/
def MAX_FUNCTION_LINES : Nat := 50

/-- A `self.violations` entry of `CodeMetrics` (the dict fields that carry
content; `'type'` becomes the constructor). -/
inductive CViolation where
  | file_size (file : String) (lines limit : Nat)
  | function_size (file : String) (function : String) (lines limit : Nat)
      (startLine : Nat)
deriving Repr, DecidableEq

/-- `CodeMetrics.stats`. -/
structure CMStats where
  total_files : Nat
  total_functions : Nat
  oversized_files : Nat
  oversized_functions : Nat
  max_file_size : Nat
  max_function_size : Nat
deriving Repr, DecidableEq

/-- Mutable state of a `CodeMetrics` instance, as set up by `__init__`
(source lines 22-32). -/
structure CMState where
  violations : List CViolation
  stats : CMStats
deriving Repr, DecidableEq

/-- The state built by `CodeMetrics.__init__`. -/
def cmInit : CMState :=
  ⟨[], ⟨0, 0, 0, 0, 0, 0⟩⟩

/-- `CodeMetrics.check_file_size` (source lines 63-86); `none` is the
`except` branch, which changes nothing. -/
def check_file_size (s : CMState) (path : String)
    (content : Option (List String)) : CMState :=
  match content with
  | none => s
  | some lines =>
    let code := count_code_lines lines
    let s1 : CMState :=
      { s with stats := { s.stats with
          total_files := s.stats.total_files + 1,
          max_file_size := max s.stats.max_file_size code } }
    if code > MAX_FILE_LINES then
      { violations := s1.violations ++ [CViolation.file_size path code MAX_FILE_LINES],
        stats := { s1.stats with oversized_files := s1.stats.oversized_files + 1 } }
    else s1

/-- Python's `func_name[:60]` (source line 162). -/
def pyTake60 (s : String) : String :=
  String.mk (s.toList.take 60)

/-- The body of the `for func_name, start, end in functions` loop of
`check_function_sizes` (source lines 151-168). -/
def cfStep (path : String) (lines : List String) (s : CMState) (r : FDRecord) :
    CMState :=
  let code := count_code_lines (pySlice lines r.startLine r.endLine)
  let s1 : CMState :=
    { s with stats := { s.stats with
        total_functions := s.stats.total_functions + 1,
        max_function_size := max s.stats.max_function_size code } }
  if code > MAX_FUNCTION_LINES then
    { violations := s1.violations
        ++ [CViolation.function_size path (pyTake60 r.name) code MAX_FUNCTION_LINES
              r.startLine],
      stats := { s1.stats with
        oversized_functions := s1.stats.oversized_functions + 1 } }
  else s1

/-- `CodeMetrics.check_function_sizes` on a Dart file (source lines 136-173);
the declaration regex is the parameter `m`, `none` is the `except` branch. -/
def check_function_sizes (m : String → Bool) (s : CMState) (path : String)
    (content : Option (List String)) : CMState :=
  match content with
  | none => s
  | some lines =>
    (find_dart_functions m lines).foldl (cfStep path lines) s

lemma cfStep_violations (path : String) (lines : List String) (s : CMState)
    (r : FDRecord) :
    (cfStep path lines s r).violations
      = s.violations
        ++ (if MAX_FUNCTION_LINES
              < count_code_lines (pySlice lines r.startLine r.endLine) then
            [CViolation.function_size path (pyTake60 r.name)
              (count_code_lines (pySlice lines r.startLine r.endLine))
              MAX_FUNCTION_LINES r.startLine]
          else []) := by
  unfold cfStep
  split_ifs with h <;> simp [h]

lemma cfFold_violations (path : String) (lines : List String)
    (rs : List FDRecord) (s : CMState) :
    (rs.foldl (cfStep path lines) s).violations
      = s.violations
        ++ (rs.filter (fun r =>
              MAX_FUNCTION_LINES
                < count_code_lines (pySlice lines r.startLine r.endLine))).map
            (fun r => CViolation.function_size path (pyTake60 r.name)
              (count_code_lines (pySlice lines r.startLine r.endLine))
              MAX_FUNCTION_LINES r.startLine) := by
  induction rs generalizing s with
  | nil => simp
  | cons r rs ih =>
    simp only [List.foldl_cons, ih, cfStep_violations]
    by_cases h : MAX_FUNCTION_LINES
        < count_code_lines (pySlice lines r.startLine r.endLine)
    · simp [List.filter_cons, h]
    · simp [List.filter_cons, h]

/-- C2: a `file_size` violation is recorded by `check_file_size` if and only
if the file's code-line count strictly exceeds `MAX_FILE_LINES = 500`, and a
`function_size` violation is recorded by `check_function_sizes` for exactly
those extracted functions whose span's code-line count strictly exceeds
`MAX_FUNCTION_LINES = 50`; in particular a count equal to the threshold adds
no violation and a count of threshold + 1 adds exactly one. -/
theorem violation_iff_strictly_exceeds (m : String → Bool) (s : CMState)
    (path : String) (lines : List String) :
    (check_file_size s path (some lines)).violations
        = s.violations
          ++ (if MAX_FILE_LINES < count_code_lines lines then
                [CViolation.file_size path (count_code_lines lines) MAX_FILE_LINES]
              else [])
      ∧ (check_function_sizes m s path (some lines)).violations
        = s.violations
          ++ ((find_dart_functions m lines).filter (fun r =>
                MAX_FUNCTION_LINES
                  < count_code_lines (pySlice lines r.startLine r.endLine))).map
              (fun r => CViolation.function_size path (pyTake60 r.name)
                (count_code_lines (pySlice lines r.startLine r.endLine))
                MAX_FUNCTION_LINES r.startLine) := by
  constructor
  · unfold check_file_size
    split_ifs with h <;> simp [h]
  · unfold check_function_sizes
    exact cfFold_violations path lines (find_dart_functions m lines) s

/-! ## `verify_metrics.py`: `MetricsAnalyzer.extract_dart_functions`

Source lines 114-203.  The `while i < len(lines)` loop either starts an
extraction at a matching line (arrow-delimited when the raw line contains
`=>`, brace-delimited otherwise) or moves on one line.  The declaration regex
of lines 128-132 is abstracted as `sig : String → Option String`, returning
`match.group(1)` on a match.  After an arrow extraction the loop resumes AT
the terminator line (the source does not advance `i` past it); after a brace
extraction it resumes one past the last consumed line. -/

/-- `FunctionMetrics` (source lines 31-37). -/
structure FunctionMetrics where
  name : String
  file_path : String
  line_number : Nat
  code_lines : Nat
deriving Repr, DecidableEq

/-- Code-line count of a function span (source lines 168-192, and the
identical block at lines 258-282 of `extract_rust_functions`): the same
per-line chain as `count_file_lines`, restarted with a fresh block-comment
state. -/
def vmCodeCount (funcLines : List String) : Nat :=
  (funcLines.foldl vmStep ⟨0, 0, 0, false⟩).code

/-- The arrow-function consumption loop (source lines 151-153): continuation
lines strictly before the first one containing `;`, paired with the rest of
the file starting at that terminator line (empty when no terminator exists). -/
def takeUntilSemi : List String → List String × List String
  | [] => ([], [])
  | l :: ls =>
    if strContains l ";" then ([], l :: ls)
    else (l :: (takeUntilSemi ls).1, (takeUntilSemi ls).2)

lemma takeUntilSemi_snd_length (ls : List String) :
    (takeUntilSemi ls).2.length ≤ ls.length := by
  induction ls with
  | nil => simp [takeUntilSemi]
  | cons l ls ih =>
    unfold takeUntilSemi
    split_ifs <;> simp <;> omega

/-- The brace-function consumption loop (source lines 163-166): lines
consumed while the running counter stays positive, paired with the rest. -/
def consumeBraces : Int → List String → List String × List String
  | _, [] => ([], [])
  | bc, l :: ls =>
    if bc > 0 then (l :: (consumeBraces (bc + netBraces l) ls).1,
                    (consumeBraces (bc + netBraces l) ls).2)
    else ([], l :: ls)

lemma consumeBraces_snd_length (bc : Int) (ls : List String) :
    (consumeBraces bc ls).2.length ≤ ls.length := by
  induction ls generalizing bc with
  | nil => simp [consumeBraces]
  | cons l ls ih =>
    unfold consumeBraces
    split_ifs <;> simp
    · exact le_trans (ih _) (Nat.le_succ _)

/-- `func_lines` of the arrow branch (source lines 149-155): the signature
line, the continuation lines, and the terminator line when one exists. -/
def arrowFuncLines (l : String) (ls : List String) : List String :=
  l :: (takeUntilSemi ls).1
    ++ (match (takeUntilSemi ls).2 with
        | t :: _ => [t]
        | [] => [])

/-- The `while i < len(lines)` loop of `extract_dart_functions`, on the
remaining lines, with `idx` the current 0-based value of `i`. -/
def goDart (sig : String → Option String) (path : String) :
    List String → Nat → List FunctionMetrics
  | [], _ => []
  | l :: ls, idx =>
    match sig l with
    | some name =>
      if strContains l "=>" then
        ⟨name, path, idx + 1, vmCodeCount (arrowFuncLines l ls)⟩
          :: goDart sig path (takeUntilSemi ls).2 (idx + 1 + (takeUntilSemi ls).1.length)
      else
        ⟨name, path, idx + 1, vmCodeCount (l :: (consumeBraces (netBraces l) ls).1)⟩
          :: goDart sig path (consumeBraces (netBraces l) ls).2
               (idx + 1 + (consumeBraces (netBraces l) ls).1.length)
    | none => goDart sig path ls (idx + 1)
termination_by lines _ => lines.length
decreasing_by
  · simp only [List.length_cons]
    have := takeUntilSemi_snd_length ls
    omega
  · simp only [List.length_cons]
    have := consumeBraces_snd_length (netBraces l) ls
    omega
  · simp [List.length_cons]

/-- `MetricsAnalyzer.extract_dart_functions` (source lines 114-203); `none`
is the `except` branch of the file read (lines 118-124). -/
def extract_dart_functions (sig : String → Option String) (path : String)
    (content : Option (List String)) : List FunctionMetrics :=
  match content with
  | none => []
  | some lines => goDart sig path lines 0

/-- A concrete stand-in for the declaration regex of `find_dart_functions`
(source line 98 of `check_code_metrics.py`) on the inputs below: it matches
the arrow signature line (`int f() =>` fits the `type name(` pattern) and
neither continuation line, exactly as the real regex does. -/
def sigInt (line : String) : Bool :=
  pyStartsWith line "int "

/-- Counterexample to C3 as stated: in the also-cited `find_dart_functions`
(`check_code_metrics.py` lines 97-101), the 3-line arrow scenario yields no
function record at all — the line-99 guard requires an opening brace on the
signature line, which an arrow signature lacks, so no extraction ever
starts. -/
theorem find_dart_arrow_yields_no_record :
    find_dart_functions sigInt ["int f() =>", "1 +", "2;"] = [] := by
  decide

/-- C3 (amended): in `extract_dart_functions` (`verify_metrics.py`), an
arrow-delimited signature (a matching line containing `=>`) consumes
continuation lines up to and including the first one containing the
terminator `;`, with no brace counting, so a signature followed by two
continuation lines of which the second holds the terminator yields one
record spanning exactly those 3 lines; in `find_dart_functions`
(`check_code_metrics.py`), such a signature yields no record at all, since
an extraction only starts on a line containing an opening brace. -/
theorem arrow_function_extraction (sig : String → Option String)
    (path name l c1 c2 : String) (hm : sig l = some name)
    (ha : strContains l "=>" = true) (hb : strContains l "\x7b" = false)
    (h1 : strContains c1 ";" = false) (h2 : strContains c2 ";" = true)
    (hs : sig c2 = none) :
    goDart sig path [l, c1, c2] 0
        = [⟨name, path, 1, vmCodeCount [l, c1, c2]⟩]
      ∧ arrowFuncLines l [c1, c2] = [l, c1, c2]
      ∧ (∀ pre t post, (∀ x ∈ pre, strContains x ";" = false) →
          strContains t ";" = true →
          takeUntilSemi (pre ++ t :: post) = (pre, t :: post))
      ∧ ∀ (m : String → Bool) (i : Nat) (st : FDState) (ln : String),
          st.current = none → strContains ln "\x7b" = false →
          fdStep m i st ln = st := by
  have hts : takeUntilSemi [c1, c2] = ([c1], [c2]) := by
    simp [takeUntilSemi, h1, h2]
  have hfl : arrowFuncLines l [c1, c2] = [l, c1, c2] := by
    simp [arrowFuncLines, hts]
  refine ⟨?_, hfl, ?_, ?_⟩
  · rw [goDart]
    simp only [hm, ha, if_true, hts, hfl]
    rw [goDart]
    simp only [hs]
    rw [goDart]
  · intro pre t post hpre ht
    induction pre with
    | nil => simp [takeUntilSemi, ht]
    | cons x xs ih =>
      have hx : strContains x ";" = false := hpre x (List.mem_cons_self x xs)
      have ih' := ih (fun y hy => hpre y (List.mem_cons_of_mem x hy))
      simp [takeUntilSemi, hx, ih']
  · intro m i st ln hcur hbr
    have hcond : (m ln && strContains ln "\x7b" && st.current.isNone) = false := by
      rw [hbr]
      simp
    unfold fdStep
    rw [hcond]
    simp only [Bool.false_eq_true, if_false]
    exact fdTrack_none i st ln hcur

/-- A concrete stand-in for the declaration regex used by the C3 witness. -/
def sigArrow (line : String) : Option String :=
  if line = "int f() =>" then some "f" else none

/-- Witness for C3: the 3-line arrow function of the claim yields exactly one
record covering the 3-line span. -/
theorem arrow_function_extraction_witness :
    goDart sigArrow "a.dart" ["int f() =>", "1 +", "2;"] 0
      = [⟨"f", "a.dart", 1, vmCodeCount ["int f() =>", "1 +", "2;"]⟩] :=
  (arrow_function_extraction sigArrow "a.dart" "f" "int f() =>" "1 +" "2;"
    (by decide) (by decide) (by decide) (by decide) (by decide) (by decide)).1

/-! ## `verify_metrics.py`: `analyze_file` and `scan_directory` (C7, C8)

Source lines 295-343.  Directory traversal and the exclusion filter are out
of scope (spec section 1); the scan is modelled over the list of files the
walk hands to `analyze_file`, each a path paired with the outcome of reading
it (`none` = unreadable).  `MetricsAnalyzer.MAX_FILE_LINES` and
`MAX_FUNCTION_LINES` (source lines 43-44) equal the same constants of
`check_code_metrics.py`, so the definitions above are reused. -/

/-- A `FileMetrics.violations` entry; the source stores formatted strings
(lines 300-301 and 313-317), modelled by the content they carry. -/
inductive VViolation where
  | fileTooLarge (code limit : Nat)
  | functionTooLarge (name : String) (line : Nat) (code limit : Nat)
deriving Repr, DecidableEq

/-- `FileMetrics` (source lines 20-28). -/
structure FileMetrics where
  path : String
  total_lines : Nat
  code_lines : Nat
  comment_lines : Nat
  blank_lines : Nat
  violations : List VViolation
deriving Repr, DecidableEq

/-- The function-violation strings appended by the loop at source lines
312-318: one per extracted function whose count strictly exceeds the limit,
in extraction order. -/
def funcViolations (funcs : List FunctionMetrics) : List VViolation :=
  (funcs.filter (fun f => MAX_FUNCTION_LINES < f.code_lines)).map
    (fun f => VViolation.functionTooLarge f.name f.line_number f.code_lines
      MAX_FUNCTION_LINES)

/-- `MetricsAnalyzer.analyze_file` (source lines 295-329): the produced
`FileMetrics` plus the functions appended to `self.function_metrics`. -/
def analyze_file (sig : String → Option String) (path : String)
    (content : Option (List String)) : FileMetrics × List FunctionMetrics :=
  ((⟨path, (count_file_lines content).1, (count_file_lines content).2.1,
      (count_file_lines content).2.2.1, (count_file_lines content).2.2.2,
      (if MAX_FILE_LINES < (count_file_lines content).2.1 then
        [VViolation.fileTooLarge (count_file_lines content).2.1 MAX_FILE_LINES]
      else [])
        ++ funcViolations (extract_dart_functions sig path content)⟩ : FileMetrics),
   extract_dart_functions sig path content)

/-- `MetricsAnalyzer.scan_directory` over the files surviving the exclusion
filter (source lines 331-343), accumulating `self.file_metrics` and
`self.function_metrics` in discovery order. -/
def scanFiles (sig : String → Option String) :
    List (String × Option (List String)) → List FileMetrics × List FunctionMetrics
  | [] => ([], [])
  | (p, c) :: fs =>
    ((analyze_file sig p c).1 :: (scanFiles sig fs).1,
     (analyze_file sig p c).2 ++ (scanFiles sig fs).2)

/-- C7: an unreadable file is recorded as a zero-metric `FileMetrics` (all
counts zero, no violations, no functions), and the scan always processes
every file: one record per input file regardless of readability, so a failed
read never aborts the scan. -/
theorem unreadable_file_recovered (sig : String → Option String) (path : String) :
    analyze_file sig path none = (⟨path, 0, 0, 0, 0, []⟩, [])
      ∧ ∀ files : List (String × Option (List String)),
          (scanFiles sig files).1.length = files.length := by
  constructor
  · rfl
  · intro files
    induction files with
    | nil => rfl
    | cons f fs ih =>
      obtain ⟨p, c⟩ := f
      simp [scanFiles, ih]

/-! ## Determinism of the scan (C8)

The scan is modelled as a big-step relation with one rule per control-flow
path of `analyze_file` (unreadable file / file-size violation / compliant
file); the relation is proved deterministic and `scanFiles` is proved to be a
run of it.  A fresh `MetricsAnalyzer` starts from empty accumulators
(source lines 46-49), which is the base case of the relation: no state
survives from one scan into the next. -/

/-- Big-step relation of one full scan. -/
inductive ScanRel (sig : String → Option String) :
    List (String × Option (List String)) →
    List FileMetrics × List FunctionMetrics → Prop
  | nil : ScanRel sig [] ([], [])
  | consUnreadable (p : String) (fs : List (String × Option (List String)))
      (L : List FileMetrics) (F : List FunctionMetrics) :
      ScanRel sig fs (L, F) →
      ScanRel sig ((p, none) :: fs) (⟨p, 0, 0, 0, 0, []⟩ :: L, F)
  | consViolation (p : String) (ls : List String)
      (fs : List (String × Option (List String)))
      (L : List FileMetrics) (F : List FunctionMetrics) :
      MAX_FILE_LINES < (count_file_lines_some ls).2.1 →
      ScanRel sig fs (L, F) →
      ScanRel sig ((p, some ls) :: fs)
        (⟨p, (count_file_lines_some ls).1, (count_file_lines_some ls).2.1,
            (count_file_lines_some ls).2.2.1, (count_file_lines_some ls).2.2.2,
            VViolation.fileTooLarge (count_file_lines_some ls).2.1 MAX_FILE_LINES
              :: funcViolations (goDart sig p ls 0)⟩ :: L,
          goDart sig p ls 0 ++ F)
  | consOk (p : String) (ls : List String)
      (fs : List (String × Option (List String)))
      (L : List FileMetrics) (F : List FunctionMetrics) :
      (count_file_lines_some ls).2.1 ≤ MAX_FILE_LINES →
      ScanRel sig fs (L, F) →
      ScanRel sig ((p, some ls) :: fs)
        (⟨p, (count_file_lines_some ls).1, (count_file_lines_some ls).2.1,
            (count_file_lines_some ls).2.2.1, (count_file_lines_some ls).2.2.2,
            funcViolations (goDart sig p ls 0)⟩ :: L,
          goDart sig p ls 0 ++ F)

lemma scanRel_det (sig : String → Option String)
    (fs : List (String × Option (List String)))
    (o1 o2 : List FileMetrics × List FunctionMetrics)
    (h1 : ScanRel sig fs o1) (h2 : ScanRel sig fs o2) : o1 = o2 := by
  induction h1 generalizing o2 with
  | nil => cases h2; rfl
  | consUnreadable p fs L F h ih =>
    cases h2 with
    | consUnreadable p' fs' L' F' h' =>
      have := ih (L', F') h'
      simp_all
  | consViolation p ls fs L F hv h ih =>
    cases h2 with
    | consViolation p' ls' fs' L' F' hv' h' =>
      have := ih (L', F') h'
      simp_all
    | consOk p' ls' fs' L' F' hk' h' =>
      exact absurd hv (by omega)
  | consOk p ls fs L F hk h ih =>
    cases h2 with
    | consViolation p' ls' fs' L' F' hv' h' =>
      exact absurd hv' (by omega)
    | consOk p' ls' fs' L' F' hk' h' =>
      have := ih (L', F') h'
      simp_all

lemma scanRel_sound (sig : String → Option String)
    (fs : List (String × Option (List String))) :
    ScanRel sig fs (scanFiles sig fs) := by
  induction fs with
  | nil => exact ScanRel.nil
  | cons f fs ih =>
    obtain ⟨p, c⟩ := f
    cases c with
    | none =>
      have h : scanFiles sig ((p, none) :: fs)
          = (⟨p, 0, 0, 0, 0, []⟩ :: (scanFiles sig fs).1, (scanFiles sig fs).2) := by
        simp [scanFiles, analyze_file, count_file_lines, extract_dart_functions,
          funcViolations]
      rw [h]
      exact ScanRel.consUnreadable p fs _ _ ih
    | some ls =>
      by_cases hv : MAX_FILE_LINES < (count_file_lines_some ls).2.1
      · have h : scanFiles sig ((p, some ls) :: fs)
            = (⟨p, (count_file_lines_some ls).1, (count_file_lines_some ls).2.1,
                (count_file_lines_some ls).2.2.1, (count_file_lines_some ls).2.2.2,
                VViolation.fileTooLarge (count_file_lines_some ls).2.1 MAX_FILE_LINES
                  :: funcViolations (goDart sig p ls 0)⟩ :: (scanFiles sig fs).1,
              goDart sig p ls 0 ++ (scanFiles sig fs).2) := by
          simp [scanFiles, analyze_file, count_file_lines, extract_dart_functions, hv]
        rw [h]
        exact ScanRel.consViolation p ls fs _ _ hv ih
      · have h : scanFiles sig ((p, some ls) :: fs)
            = (⟨p, (count_file_lines_some ls).1, (count_file_lines_some ls).2.1,
                (count_file_lines_some ls).2.2.1, (count_file_lines_some ls).2.2.2,
                funcViolations (goDart sig p ls 0)⟩ :: (scanFiles sig fs).1,
              goDart sig p ls 0 ++ (scanFiles sig fs).2) := by
          simp [scanFiles, analyze_file, count_file_lines, extract_dart_functions, hv]
        rw [h]
        exact ScanRel.consOk p ls fs _ _ (by omega) ih

/-! ## Rankings and the scan summary (C8, C9)

`generate_report` (source lines 345-419) aggregates summary statistics and
builds the two top-10 rankings with
`sorted(..., key=lambda x: x.code_lines, reverse=True)[:10]` (lines 394 and
408).  CPython's `sorted` is a stable sort, and with `reverse=True` equal
keys still keep their original order; a stable descending sort is
extensionally unique, so it is modelled by stable insertion. -/

/-- Stable descending insertion: `x` (a later element) goes after every
already-placed element with a key `≥` its own. -/
def pyInsertDesc {α : Type} (key : α → Nat) (x : α) : List α → List α
  | [] => [x]
  | y :: ys => if key x < key y then y :: pyInsertDesc key x ys else x :: y :: ys

/-- `sorted(l, key=key, reverse=True)`: stable, descending by `key`. -/
def pySortDesc {α : Type} (key : α → Nat) : List α → List α
  | [] => []
  | x :: xs => pyInsertDesc key x (pySortDesc key xs)

/-- The content `generate_report` renders (source lines 357-414): aggregate
statistics and the two top-10 rankings. -/
structure ScanSummary where
  total_files : Nat
  total_code_lines : Nat
  total_violations : Nat
  files_with_violations : Nat
  largest_files : List FileMetrics
  largest_functions : List FunctionMetrics
deriving Repr, DecidableEq

/-- The summary computed from the accumulated scan state. -/
def mkSummary (o : List FileMetrics × List FunctionMetrics) : ScanSummary :=
  ⟨o.1.length,
   (o.1.map (fun f => f.code_lines)).sum,
   (o.1.map (fun f => f.violations.length)).sum,
   (o.1.filter (fun f => !f.violations.isEmpty)).length,
   (pySortDesc (fun f => f.code_lines) o.1).take 10,
   (pySortDesc (fun f => f.code_lines) o.2).take 10⟩

/-- C8: the scan relation is deterministic, so two runs over the same file
tree, each starting from a fresh `MetricsAnalyzer`, produce identical
`ScanSummary` content. -/
theorem scan_deterministic (sig : String → Option String)
    (files : List (String × Option (List String)))
    (o1 o2 : List FileMetrics × List FunctionMetrics)
    (h1 : ScanRel sig files o1) (h2 : ScanRel sig files o2) :
    mkSummary o1 = mkSummary o2 :=
  congrArg mkSummary (scanRel_det sig files o1 o2 h1 h2)

/-- Witness for C8 on a two-file tree (one readable, one not). -/
theorem scan_deterministic_witness :
    mkSummary (scanFiles sigArrow [("a.dart", some ["x;"]), ("b.dart", none)])
      = mkSummary (scanFiles sigArrow [("a.dart", some ["x;"]), ("b.dart", none)]) :=
  scan_deterministic sigArrow [("a.dart", some ["x;"]), ("b.dart", none)] _ _
    (scanRel_sound sigArrow _) (scanRel_sound sigArrow _)

lemma mem_pyInsertDesc {α : Type} (key : α → Nat) (x z : α) (l : List α)
    (h : z ∈ pyInsertDesc key x l) : z = x ∨ z ∈ l := by
  induction l with
  | nil => simpa [pyInsertDesc] using h
  | cons y ys ih =>
    unfold pyInsertDesc at h
    split_ifs at h with hk
    · rcases List.mem_cons.mp h with h | h
      · exact Or.inr (List.mem_cons.mpr (Or.inl h))
      · rcases ih h with h | h
        · exact Or.inl h
        · exact Or.inr (List.mem_cons.mpr (Or.inr h))
    · rcases List.mem_cons.mp h with h | h
      · exact Or.inl h
      · exact Or.inr h

lemma pyInsertDesc_pairwise {α : Type} (key : α → Nat) (x : α) (l : List α)
    (h : l.Pairwise (fun a b => key b ≤ key a)) :
    (pyInsertDesc key x l).Pairwise (fun a b => key b ≤ key a) := by
  induction l with
  | nil => simp [pyInsertDesc]
  | cons y ys ih =>
    rw [List.pairwise_cons] at h
    unfold pyInsertDesc
    split_ifs with hk
    · rw [List.pairwise_cons]
      refine ⟨?_, ih h.2⟩
      intro z hz
      rcases mem_pyInsertDesc key x z ys hz with hz | hz
      · subst hz; omega
      · exact h.1 z hz
    · rw [List.pairwise_cons]
      refine ⟨?_, List.pairwise_cons.mpr h⟩
      intro z hz
      rcases List.mem_cons.mp hz with hz | hz
      · subst hz; omega
      · have := h.1 z hz
        omega

lemma pySortDesc_pairwise {α : Type} (key : α → Nat) (l : List α) :
    (pySortDesc key l).Pairwise (fun a b => key b ≤ key a) := by
  induction l with
  | nil => simp [pySortDesc]
  | cons x xs ih => exact pyInsertDesc_pairwise key x _ ih

lemma pyInsertDesc_filter {α : Type} (key : α → Nat) (x : α) (l : List α)
    (c : Nat) :
    (pyInsertDesc key x l).filter (fun z => key z = c)
      = if key x = c then x :: l.filter (fun z => key z = c)
        else l.filter (fun z => key z = c) := by
  induction l with
  | nil =>
    by_cases h : key x = c <;> simp [pyInsertDesc, h]
  | cons y ys ih =>
    by_cases hk : key x < key y
    · have h1 : pyInsertDesc key x (y :: ys) = y :: pyInsertDesc key x ys := by
        simp [pyInsertDesc, hk]
      rw [h1]
      by_cases hx : key x = c
      · have hyc : ¬key y = c := by omega
        simp [List.filter_cons, ih, hx, hyc]
      · simp [List.filter_cons, ih, hx]
    · have h1 : pyInsertDesc key x (y :: ys) = x :: y :: ys := by
        simp [pyInsertDesc, hk]
      rw [h1]
      by_cases hx : key x = c
      · simp [List.filter_cons, hx]
      · simp [List.filter_cons, hx]

lemma pySortDesc_filter {α : Type} (key : α → Nat) (l : List α) (c : Nat) :
    (pySortDesc key l).filter (fun z => key z = c)
      = l.filter (fun z => key z = c) := by
  induction l with
  | nil => rfl
  | cons x xs ih =>
    simp only [pySortDesc, pyInsertDesc_filter, ih, List.filter_cons]
    split_ifs with h <;> simp_all

/-- C9: both top-10 rankings of the summary are in descending code-line
order, and the underlying sort is stable: restricted to any fixed code-line
count, the sorted sequence equals the original discovery sequence. -/
theorem rankings_sorted_and_stable (L : List FileMetrics)
    (F : List FunctionMetrics) :
    (mkSummary (L, F)).largest_files.Pairwise
        (fun a b => b.code_lines ≤ a.code_lines)
      ∧ (mkSummary (L, F)).largest_functions.Pairwise
        (fun a b => b.code_lines ≤ a.code_lines)
      ∧ (∀ c, (pySortDesc (fun f => f.code_lines) L).filter
            (fun f => f.code_lines = c)
          = L.filter (fun f => f.code_lines = c))
      ∧ ∀ c, (pySortDesc (fun f => f.code_lines) F).filter
            (fun f => f.code_lines = c)
          = F.filter (fun f => f.code_lines = c) := by
  refine ⟨?_, ?_, fun c => pySortDesc_filter _ L c, fun c => pySortDesc_filter _ F c⟩
  · exact List.Pairwise.take (pySortDesc_pairwise _ L)
  · exact List.Pairwise.take (pySortDesc_pairwise _ F)

end Metrics
